import Mathlib

/-!
# Verification of the twlv wire envelope (Message) and Peer record

A shallow embedding of src/message.js and src/peer.js.

Modelling conventions:
* Node.js Buffers are byte lists (List Nat, each element < 256 on every
  buffer the program builds).
* JS strings are Lean strings; lengths counted in UTF-16 code units where
  the source uses String.prototype.length (see jsStrLen).
* Throwing operations return Except JsErr; an AssertionError raised by
  assert(cond, msg) is JsErr.assertFailed msg, a thrown Error(msg) is
  JsErr.thrown msg, a Node buffer out-of-range write/read is
  JsErr.rangeError.
* The Identity capability (external collaborator, spec section 6) is a
  structure of its observable operations.
-/

/-- Error outcomes of the JS code: assert(cond, msg) failures, thrown
Error(msg) values, and Node buffer out-of-range errors. -/
inductive JsErr where
  | assertFailed (msg : String)
  | thrown (msg : String)
  | rangeError
deriving DecidableEq, Repr

/-- buf.slice(s, e): the bytes from index s (inclusive) to e (exclusive),
clamped to the buffer. -/
def jsSlice (l : List Nat) (s e : Nat) : List Nat :=
  (l.take e).drop s

/-- A freshly allocated region of n zero bytes with l written at its start
(Buffer.alloc zero-fills; copies leave the untouched tail zero).
Callers only use it with l.length ≤ n. -/
def padTo (n : Nat) (l : List Nat) : List Nat :=
  l ++ List.replicate (n - l.length) 0

/-- buf.readUInt8(off) (bounds already checked by the caller). -/
def jsReadUInt8 (l : List Nat) (off : Nat) : Nat :=
  l.getD off 0

/-- buf.readInt8(off): the byte reinterpreted as a signed 8-bit value. -/
def jsReadInt8 (l : List Nat) (off : Nat) : Int :=
  let b := l.getD off 0
  if b < 128 then (b : Int) else (b : Int) - 256

/-- buf.readUInt16LE(off). -/
def jsReadUInt16LE (l : List Nat) (off : Nat) : Nat :=
  l.getD off 0 + 256 * l.getD (off + 1) 0

/-- JS ToUint32: the unsigned 32-bit pattern of an integer. -/
def jsToUint32 (x : Int) : Nat :=
  (x % 4294967296).toNat

/-- JS bitwise AND of an integer with a small nonnegative mask
(x & mask with mask < 2^31). -/
def jsBitAnd (x : Int) (mask : Nat) : Nat :=
  jsToUint32 x &&& mask

/-- Is c one of 0-9, a-f, A-F (the characters Buffer hex decoding accepts)? -/
def isHexDigitChar (c : Char) : Bool :=
  (48 ≤ c.toNat && c.toNat ≤ 57) || (97 ≤ c.toNat && c.toNat ≤ 102) ||
    (65 ≤ c.toNat && c.toNat ≤ 70)

/-- Numeric value of a hex digit character. -/
def hexVal (c : Char) : Nat :=
  if c.toNat ≤ 57 then c.toNat - 48
  else if c.toNat ≤ 70 then c.toNat - 55
  else c.toNat - 87

/-- Buffer hex decoding (Buffer.prototype.write with the hex encoding):
consume complete pairs of hex digits, stopping at the first invalid pair
or odd leftover character. -/
def hexPairs : List Char → List Nat
  | a :: b :: rest =>
    if isHexDigitChar a && isHexDigitChar b then
      (hexVal a * 16 + hexVal b) :: hexPairs rest
    else []
  | _ => []

/-- Lowercase hex digit character for a value below 16. -/
def hexDigit (n : Nat) : Char :=
  if n < 10 then Char.ofNat (48 + n) else Char.ofNat (87 + n)

/-- The character list of the hex rendering of a byte list. -/
def hexChars (l : List Nat) : List Char :=
  l.foldr (fun b acc => hexDigit (b / 16) :: hexDigit (b % 16) :: acc) []

/-- buf.toString with the hex encoding: two lowercase digits per byte. -/
def toHexString (l : List Nat) : String :=
  ⟨hexChars l⟩

/-- UTF-8 encoding of one (non-surrogate) code point. -/
def utf8EncodeChar (c : Char) : List Nat :=
  let n := c.toNat
  if n < 128 then [n]
  else if n < 2048 then [192 + n / 64, 128 + n % 64]
  else if n < 65536 then [224 + n / 4096, 128 + n / 64 % 64, 128 + n % 64]
  else [240 + n / 262144, 128 + n / 4096 % 64, 128 + n / 64 % 64, 128 + n % 64]

/-- Buffer.from(string): UTF-8 bytes of the string. -/
def utf8Encode (s : String) : List Nat :=
  s.data.foldr (fun c acc => utf8EncodeChar c ++ acc) []

/-- The replacement character U+FFFD produced for invalid UTF-8 input. -/
def replChar : Char := Char.ofNat 65533

/-- buf.toString with the utf8 encoding: WHATWG UTF-8 decode with
replacement — multi-byte sequences are bounds-checked (no overlongs, no
surrogates, max U+10FFFF); an invalid byte yields U+FFFD and decoding
resumes at the next byte. -/
def utf8Decode : List Nat → List Char
  | [] => []
  | b :: rest =>
    if b < 128 then Char.ofNat b :: utf8Decode rest
    else if 194 ≤ b && b ≤ 223 then
      match rest with
      | [] => [replChar]
      | c :: rest2 =>
        if 128 ≤ c && c ≤ 191 then
          Char.ofNat ((b - 192) * 64 + (c - 128)) :: utf8Decode rest2
        else replChar :: utf8Decode (c :: rest2)
    else if 224 ≤ b && b ≤ 239 then
      match rest with
      | [] => [replChar]
      | c :: rest2 =>
        let lo := if b = 224 then 160 else 128
        let hi := if b = 237 then 159 else 191
        if lo ≤ c && c ≤ hi then
          match rest2 with
          | [] => [replChar]
          | d :: rest3 =>
            if 128 ≤ d && d ≤ 191 then
              Char.ofNat ((b - 224) * 4096 + (c - 128) * 64 + (d - 128)) ::
                utf8Decode rest3
            else replChar :: utf8Decode (d :: rest3)
        else replChar :: utf8Decode (c :: rest2)
    else if 240 ≤ b && b ≤ 244 then
      match rest with
      | [] => [replChar]
      | c :: rest2 =>
        let lo := if b = 240 then 144 else 128
        let hi := if b = 244 then 143 else 191
        if lo ≤ c && c ≤ hi then
          match rest2 with
          | [] => [replChar]
          | d :: rest3 =>
            if 128 ≤ d && d ≤ 191 then
              match rest3 with
              | [] => [replChar]
              | e :: rest4 =>
                if 128 ≤ e && e ≤ 191 then
                  Char.ofNat ((b - 240) * 262144 + (c - 128) * 4096 +
                      (d - 128) * 64 + (e - 128)) :: utf8Decode rest4
                else replChar :: utf8Decode (e :: rest4)
            else replChar :: utf8Decode (d :: rest3)
        else replChar :: utf8Decode (c :: rest2)
    else replChar :: utf8Decode rest

/-- buf.toString with the utf8 encoding, as a string. -/
def utf8DecodeStr (l : List Nat) : String :=
  ⟨utf8Decode l⟩

/-- JS String.prototype.length: the number of UTF-16 code units (code
points at or above U+10000 count twice). -/
def jsStrLen (s : String) : Nat :=
  s.data.foldr (fun c acc => (if c.toNat < 65536 then 1 else 2) + acc) 0

/-! ## The Message envelope (src/message.js) -/

def MODE_PLAIN : Nat := 0
def MODE_ENCRYPTED : Nat := 1
def MODE_SIGNED : Nat := 2

/-- The Message fields (src/message.js constructor, lines 52-72).
The payload, signature and encrypted fields hold the byte contents of the
corresponding Buffers; mode is an Int because fromBuffer reads it with the
signed readInt8. -/
structure Message where
  mode : Int := (MODE_ENCRYPTED ||| MODE_SIGNED : Nat)
  seq : Nat := 0
  «from» : String := ""
  «to» : String := ""
  ttl : Nat := 1
  command : String := ""
  payload : List Nat := []
  signature : List Nat := []
  encrypted : List Nat := []
deriving DecidableEq, Repr

/-- Boolean(this.mode & MODE_ENCRYPTED). -/
def Message.hasEncryptFlag (m : Message) : Bool :=
  jsBitAnd m.mode MODE_ENCRYPTED != 0

/-- Boolean(this.mode & MODE_SIGNED). -/
def Message.hasSignFlag (m : Message) : Bool :=
  jsBitAnd m.mode MODE_SIGNED != 0

/-- The Identity capability consumed by Message (spec section 6): address,
sign, verify, encrypt, decrypt. Its operations are opaque functions on
byte lists. -/
structure Identity where
  address : String
  sign : List Nat → List Nat
  verify : List Nat → List Nat → Bool
  encrypt : List Nat → List Nat
  decrypt : List Nat → List Nat

/-- Message.prototype.sign (src/message.js lines 82-93). The source
returns undefined on the early no-flag return and `this` otherwise; the
model returns the message value whose fields are the observable state. -/
def Message.sign (m : Message) (identity : Identity) : Except JsErr Message :=
  if !m.hasSignFlag then .ok m
  else if identity.address ≠ m.«from» then
    .error (.assertFailed "Invalid identity to sign with")
  else
    let payload := if m.hasEncryptFlag then m.encrypted else m.payload
    .ok { m with signature := identity.sign payload }

/-- Message.prototype.verify (src/message.js lines 95-108). -/
def Message.verify (m : Message) (identity : Identity) : Except JsErr Message :=
  if !m.hasSignFlag then .ok m
  else if identity.address ≠ m.«from» then
    .error (.assertFailed "Invalid identity to verify with")
  else
    let payload := if m.hasEncryptFlag then m.encrypted else m.payload
    if !identity.verify payload m.signature then
      .error (.thrown "Invalid signature")
    else .ok m

/-- Message.prototype.encrypt (src/message.js lines 110-120). -/
def Message.encrypt (m : Message) (identity : Identity) : Except JsErr Message :=
  if !m.hasEncryptFlag then .ok m
  else if identity.address ≠ m.«to» then
    .error (.assertFailed "Invalid identity to encrypt with")
  else .ok { m with encrypted := identity.encrypt m.payload }

/-- Message.prototype.decrypt (src/message.js lines 122-132). -/
def Message.decrypt (m : Message) (identity : Identity) : Except JsErr Message :=
  if !m.hasEncryptFlag then .ok m
  else if identity.address ≠ m.«to» then
    .error (.assertFailed "Invalid identity to decrypt with")
  else .ok { m with payload := identity.decrypt m.encrypted }

/-- Message.prototype.getBuffer (src/message.js lines 134-169), as the
byte list the sequential writes leave in the freshly allocated buffer:

* assert(this.from, 'Unset from') — empty string is falsy;
* the two integrity checks, in source order (signature before encrypted);
* getLengthPrefixed(this.command) runs before the header writes, and its
  writeUInt8(length) raises a range error when the command exceeds 255
  UTF-8 bytes;
* writeUInt8(mode) and writeUInt8(ttl) raise range errors outside 0..255,
  and writeUInt16LE(mode) outside 0..65535 (unreachable after the
  mode ≤ 255 check, kept for faithfulness);
* line 151 writes this.mode — not this.seq — into the two bytes at
  offset 2;
* buf.write(from/to, off, 10, 'hex') decodes complete hex pairs, at most
  10 bytes, leaving the rest of the 10-byte field zero; the `to` field is
  written only when `to` is non-empty (truthy);
* this.signature.copy(buf, 24) copies min(length, remaining) bytes, but
  any bytes it places past offset 88 are overwritten by the later
  command/payload copies, which together cover offsets 88..end of the
  exactly sized buffer — so the signature field of the result is the
  first 64 signature bytes, zero-padded. -/
def Message.getBuffer (m : Message) : Except JsErr (List Nat) :=
  if m.«from» = "" then .error (.assertFailed "Unset from")
  else if m.hasSignFlag && m.signature.length == 0 then
    .error (.thrown "Invalid signature")
  else if m.hasEncryptFlag && m.encrypted.length == 0 then
    .error (.thrown "Invalid encrypted")
  else
    let payload := if m.hasEncryptFlag then m.encrypted else m.payload
    let cmdBytes := utf8Encode m.command
    if 255 < cmdBytes.length then .error .rangeError
    else if m.mode < 0 ∨ 255 < m.mode then .error .rangeError
    else if 255 < m.ttl then .error .rangeError
    else if 65535 < m.mode then .error .rangeError
    else
      let modeN := m.mode.toNat
      let fromBytes := padTo 10 ((hexPairs m.«from».data).take 10)
      let toBytes :=
        if m.«to» = "" then List.replicate 10 0
        else padTo 10 ((hexPairs m.«to».data).take 10)
      let sigBytes := padTo 64 (m.signature.take 64)
      .ok ([modeN, m.ttl, modeN % 256, modeN / 256 % 256] ++
        fromBytes ++ toBytes ++ sigBytes ++
        (cmdBytes.length :: cmdBytes) ++ payload)

/-- Message.fromBuffer (src/message.js lines 12-50). The reads at offsets
0, 1, 2 and the readUInt8 inside readLengthPrefixed at offset 88 raise a
range error on a buffer shorter than 89 bytes (whichever read is first to
fall outside the buffer; the error is the same), and the slices and
toString calls clamp, so the single length guard is observationally
faithful. Note line 29: the offset past the command advances by the JS
string length of the decoded command (UTF-16 code units), not by its byte
length. -/
def Message.fromBuffer (buf : List Nat) : Except JsErr Message :=
  if buf.length < 89 then .error .rangeError
  else
    let mode := jsReadInt8 buf 0
    let ttl := jsReadUInt8 buf 1
    let seq := jsReadUInt16LE buf 2
    let fromS := toHexString (jsSlice buf 4 14)
    let toS := toHexString (jsSlice buf 14 24)
    let signature := jsSlice buf 24 88
    let cmdLen := jsReadUInt8 buf 88
    let command := utf8DecodeStr (jsSlice buf 89 (89 + cmdLen))
    let offset := 88 + jsStrLen command + 1
    let trailing := buf.drop offset
    let msg : Message :=
      { mode, ttl, seq, «from» := fromS, «to» := toS, command, signature,
        payload := [], encrypted := [] }
    if msg.hasEncryptFlag then .ok { msg with encrypted := trailing }
    else .ok { msg with payload := trailing }

/-- Message.prototype.clone (src/message.js lines 171-173): new
Message(this). The constructor passes each buffer field through toBuffer,
which returns a Buffer argument unchanged (lines 181-183), so at the
value level every field is carried over as is. -/
def Message.clone (m : Message) : Message :=
  { mode := m.mode, seq := m.seq, «from» := m.«from», «to» := m.«to»,
    ttl := m.ttl, command := m.command, payload := m.payload,
    signature := m.signature, encrypted := m.encrypted }

/-! ## Reference-level model of the buffer fields, for clone

The value-level Message above is blind to object identity. Buffer aliasing
is observable in JS because Buffers are mutable: toBuffer (src/message.js
lines 176-186) returns a Buffer argument itself, not a copy, so the clone
built by new Message(this) holds the very same Buffer objects as the
original. MessageRef carries the buffer fields as references (indices)
into a store of byte lists, which is how a mutation through one alias is
visible through the other. -/

/-- A Message with its Buffer-valued fields as references into a store. -/
structure MessageRef where
  mode : Int
  seq : Nat
  «from» : String
  «to» : String
  ttl : Nat
  command : String
  payloadRef : Nat
  signatureRef : Nat
  encryptedRef : Nat
deriving DecidableEq, Repr

/-- A heap of Buffer objects: reference i denotes the i-th byte list. -/
abbrev Store := List (List Nat)

/-- Read the bytes of the Buffer a reference denotes. -/
def readBuf (s : Store) (r : Nat) : List Nat :=
  List.getD s r []

/-- Overwrite one byte of the Buffer a reference denotes (buf[i] = v). -/
def writeByteAt (s : Store) (r i v : Nat) : Store :=
  List.set s r ((List.getD s r []).set i v)

/-- Message.prototype.clone at the reference level: new Message(this)
passes this.payload, this.signature, this.encrypted — Buffer objects — to
the constructor, whose toBuffer returns them unchanged (src/message.js
lines 181-183), so the clone stores the same references. -/
def MessageRef.clone (m : MessageRef) : MessageRef :=
  { mode := m.mode, seq := m.seq, «from» := m.«from», «to» := m.«to»,
    ttl := m.ttl, command := m.command, payloadRef := m.payloadRef,
    signatureRef := m.signatureRef, encryptedRef := m.encryptedRef }

/-! ## The Peer record (src/peer.js) -/

/-- A dialer descriptor of the node/transport capability (spec section
6): only its proto string is consumed. -/
structure Dialer where
  proto : String
deriving DecidableEq, Repr

/-- The node capability consumed by getEligibleUrls. -/
structure NodeInfo where
  dialers : List Dialer
deriving DecidableEq, Repr

/-- The argument object of the Peer constructor. -/
structure PeerArgs where
  networkId : String
  address : String
  pubKey : String
  urls : List String
  timestamp : Int
deriving DecidableEq, Repr

/-- A constructed Peer. The timestamp field models the Date instant
new Date(timestamp) denotes. -/
structure Peer where
  address : String
  networkId : String
  urls : List String
  timestamp : Int
deriving DecidableEq, Repr

/-- Modelled from the spec: the Identity base class (required from
./identity, which is not part of src/) derives the address
deterministically from the public key (spec sections 3 and 6: "address
(derived, stable identifier)"); super(pubKey) sets this.address to that
derived value and does not fail. The derivation itself is opaque, passed
in as a function. -/
def deriveAddress (derive : String → String) (pubKey : String) : String :=
  derive pubKey

/-- The Peer constructor (src/peer.js lines 4-14): super(pubKey) sets
this.address to the derived address, then the supplied address is checked
against it; on mismatch the constructor throws, otherwise networkId, urls
and timestamp are set from the arguments (new Date(t) modelled as the
instant t). -/
def Peer.construct (derive : String → String) (a : PeerArgs) :
    Except JsErr Peer :=
  let derived := deriveAddress derive a.pubKey
  if a.address ≠ derived then .error (.thrown "Mismatch address")
  else .ok { address := derived, networkId := a.networkId, urls := a.urls,
             timestamp := a.timestamp }

/-- Peer.prototype.getEligibleUrls (src/peer.js lines 16-18): keep the
urls for which Array.prototype.find locates a dialer such that the url
starts with "proto:" (the found dialer object is truthy, undefined
falsy). url.startsWith(x) is the character-level prefix test, modelled on
the character lists. -/
def Peer.getEligibleUrls (p : Peer) (node : NodeInfo) : List String :=
  p.urls.filter fun url =>
    (node.dialers.find? fun dialer =>
      ((dialer.proto ++ ":").data.isPrefixOf url.data)).isSome

/-- Peer.prototype.update (src/peer.js lines 20-23): replaces urls and
timestamp only. -/
def Peer.update (p : Peer) (urls : List String) (timestamp : Int) : Peer :=
  { p with urls := urls, timestamp := timestamp }

/-! ## Helper lemmas -/

/-- Lowercase hexadecimal digit (0-9, a-f), the alphabet toString(hex)
produces. -/
def isLowerHex (c : Char) : Bool :=
  (48 ≤ c.toNat && c.toNat ≤ 57) || (97 ≤ c.toNat && c.toNat ≤ 102)

theorem isLowerHex_isHexDigitChar {c : Char} (h : isLowerHex c = true) :
    isHexDigitChar c = true := by
  simp only [isLowerHex, Bool.or_eq_true, Bool.and_eq_true,
    decide_eq_true_eq] at h
  simp only [isHexDigitChar, Bool.or_eq_true, Bool.and_eq_true,
    decide_eq_true_eq]
  omega

theorem hexVal_lt_16 {c : Char} (h : isLowerHex c = true) : hexVal c < 16 := by
  simp only [isLowerHex, Bool.or_eq_true, Bool.and_eq_true,
    decide_eq_true_eq] at h
  unfold hexVal
  split <;> rename_i h1
  · omega
  · split <;> omega

theorem hexDigit_hexVal {c : Char} (h : isLowerHex c = true) :
    hexDigit (hexVal c) = c := by
  simp only [isLowerHex, Bool.or_eq_true, Bool.and_eq_true,
    decide_eq_true_eq] at h
  rcases h with ⟨h1, h2⟩ | ⟨h1, h2⟩
  · have hv : hexVal c = c.toNat - 48 := by
      unfold hexVal; rw [if_pos h2]
    rw [hv]
    unfold hexDigit
    rw [if_pos (by omega)]
    have e : 48 + (c.toNat - 48) = c.toNat := by omega
    rw [e, Char.ofNat_toNat]
  · have hv : hexVal c = c.toNat - 87 := by
      unfold hexVal; rw [if_neg (by omega), if_neg (by omega)]
    rw [hv]
    unfold hexDigit
    rw [if_neg (by omega)]
    have e : 87 + (c.toNat - 87) = c.toNat := by omega
    rw [e, Char.ofNat_toNat]

theorem hexChars_hexPairs :
    ∀ cs : List Char, cs.all isLowerHex = true → cs.length % 2 = 0 →
      hexChars (hexPairs cs) = cs ∧ (hexPairs cs).length = cs.length / 2
  | [], _, _ => by simp [hexPairs, hexChars]
  | [a], _, hev => by simp at hev
  | a :: b :: rest, hall, hev => by
    simp only [List.all_cons, Bool.and_eq_true] at hall
    obtain ⟨ha, hb, hrest⟩ := hall
    have hev' : rest.length % 2 = 0 := by
      simp only [List.length_cons] at hev
      omega
    have ih := hexChars_hexPairs rest hrest hev'
    have hva := hexVal_lt_16 ha
    have hvb := hexVal_lt_16 hb
    have hgate : (isHexDigitChar a && isHexDigitChar b) = true := by
      rw [isLowerHex_isHexDigitChar ha, isLowerHex_isHexDigitChar hb]; rfl
    have hdiv : (hexVal a * 16 + hexVal b) / 16 = hexVal a := by omega
    have hmod : (hexVal a * 16 + hexVal b) % 16 = hexVal b := by omega
    constructor
    · show hexChars (hexPairs (a :: b :: rest)) = a :: b :: rest
      rw [hexPairs, if_pos hgate]
      show hexDigit ((hexVal a * 16 + hexVal b) / 16) ::
          hexDigit ((hexVal a * 16 + hexVal b) % 16) ::
          hexChars (hexPairs rest) = a :: b :: rest
      rw [hdiv, hmod, hexDigit_hexVal ha, hexDigit_hexVal hb, ih.1]
    · rw [hexPairs, if_pos hgate]
      simp only [List.length_cons, ih.2]
      omega

theorem utf8EncodeChar_ascii {c : Char} (hc : c.toNat < 128) :
    utf8EncodeChar c = [c.toNat] := by
  unfold utf8EncodeChar
  simp only [if_pos hc]

theorem utf8Encode_list_ascii (cs : List Char)
    (h : ∀ c ∈ cs, c.toNat < 128) :
    cs.foldr (fun c acc => utf8EncodeChar c ++ acc) [] =
      cs.map Char.toNat := by
  induction cs with
  | nil => rfl
  | cons c cs ih =>
    rw [List.foldr_cons, List.map_cons, ih (fun x hx => h x (by simp [hx])),
      utf8EncodeChar_ascii (h c (by simp))]
    rfl

theorem utf8Encode_ascii (s : String)
    (h : ∀ c ∈ s.data, c.toNat < 128) :
    utf8Encode s = s.data.map Char.toNat :=
  utf8Encode_list_ascii s.data h

theorem utf8Decode_cons_ascii (b : Nat) (rest : List Nat) (hb : b < 128) :
    utf8Decode (b :: rest) = Char.ofNat b :: utf8Decode rest := by
  rw [utf8Decode.eq_def]
  simp [hb]

theorem utf8Decode_ascii (l : List Nat) (h : ∀ b ∈ l, b < 128) :
    utf8Decode l = l.map Char.ofNat := by
  induction l with
  | nil => rfl
  | cons b rest ih =>
    rw [utf8Decode_cons_ascii b rest (h b (by simp)),
      ih (fun x hx => h x (by simp [hx]))]
    rfl

theorem map_ofNat_toNat (cs : List Char) :
    (cs.map Char.toNat).map Char.ofNat = cs := by
  induction cs with
  | nil => rfl
  | cons c cs ih => simp only [List.map_cons, Char.ofNat_toNat, ih]

theorem jsStrLen_list_ascii (cs : List Char) (h : ∀ c ∈ cs, c.toNat < 128) :
    cs.foldr (fun c acc => (if c.toNat < 65536 then 1 else 2) + acc) 0 =
      cs.length := by
  induction cs with
  | nil => rfl
  | cons c cs ih =>
    have hc : c.toNat < 128 := h c (by simp)
    rw [List.foldr_cons, List.length_cons,
      ih (fun x hx => h x (by simp [hx])), if_pos (by omega : c.toNat < 65536)]
    omega

theorem jsStrLen_ascii (s : String) (h : ∀ c ∈ s.data, c.toNat < 128) :
    jsStrLen s = s.data.length :=
  jsStrLen_list_ascii s.data h

theorem padTo_length {n : Nat} {l : List Nat} (h : l.length ≤ n) :
    (padTo n l).length = n := by
  simp only [padTo, List.length_append, List.length_replicate]
  omega

theorem jsSlice_append_exact (A B R : List Nat) (s e : Nat)
    (hs : s = A.length) (he : e = A.length + B.length) :
    jsSlice (A ++ (B ++ R)) s e = B := by
  subst hs he
  unfold jsSlice
  rw [List.take_append, List.take_left, List.drop_left]

theorem getD_append_len (A : List Nat) (x : Nat) (R : List Nat) (d : Nat) :
    (A ++ x :: R).getD A.length d = x := by
  induction A with
  | nil => rfl
  | cons a A ih => simpa using ih

theorem getD_append_len' {A : List Nat} {x : Nat} {R : List Nat} {d n : Nat}
    (h : n = A.length) : (A ++ x :: R).getD n d = x := by
  subst h; exact getD_append_len A x R d

/-- The byte list a successful getBuffer returns, spelled out. -/
theorem getBuffer_ok (m : Message)
    (hfrom : m.«from» ≠ "")
    (hsig : ¬(m.hasSignFlag = true ∧ m.signature.length = 0))
    (henc : ¬(m.hasEncryptFlag = true ∧ m.encrypted.length = 0))
    (hcmd : (utf8Encode m.command).length ≤ 255)
    (hm0 : 0 ≤ m.mode) (hm1 : m.mode ≤ 255) (httl : m.ttl ≤ 255) :
    m.getBuffer = .ok
      ([m.mode.toNat, m.ttl, m.mode.toNat % 256, m.mode.toNat / 256 % 256] ++
        padTo 10 ((hexPairs m.«from».data).take 10) ++
        (if m.«to» = "" then List.replicate 10 0
         else padTo 10 ((hexPairs m.«to».data).take 10)) ++
        padTo 64 (m.signature.take 64) ++
        ((utf8Encode m.command).length :: utf8Encode m.command) ++
        (if m.hasEncryptFlag then m.encrypted else m.payload)) := by
  have h2 : (m.hasSignFlag && m.signature.length == 0) = false := by
    by_cases hs : m.hasSignFlag = true
    · have hne : m.signature.length ≠ 0 := fun h0 => hsig ⟨hs, h0⟩
      simp [hs, hne]
    · simp only [Bool.not_eq_true] at hs
      simp [hs]
  have h3 : (m.hasEncryptFlag && m.encrypted.length == 0) = false := by
    by_cases hs : m.hasEncryptFlag = true
    · have hne : m.encrypted.length ≠ 0 := fun h0 => henc ⟨hs, h0⟩
      simp [hs, hne]
    · simp only [Bool.not_eq_true] at hs
      simp [hs]
  have hc' : ¬(255 < (utf8Encode m.command).length) := by omega
  have hmo : ¬(m.mode < 0 ∨ 255 < m.mode) := by omega
  have ht' : ¬(255 < m.ttl) := by omega
  have hm2 : ¬(65535 < m.mode) := by omega
  unfold Message.getBuffer
  rw [if_neg hfrom]
  simp only [h2, h3, Bool.false_eq_true, if_false]
  simp only [if_neg hc', if_neg hmo, if_neg ht', if_neg hm2]

theorem toNat_ofNat_lt128 {b : Nat} (h : b < 128) :
    (Char.ofNat b).toNat = b := by
  unfold Char.ofNat
  rw [dif_pos]
  · rfl
  · exact Or.inl (by omega)

theorem jsStrLen_map_ofNat (C : List Nat) (h : ∀ b ∈ C, b < 128) :
    jsStrLen ⟨C.map Char.ofNat⟩ = C.length := by
  have := jsStrLen_list_ascii (C.map Char.ofNat) (by
    intro c hc
    obtain ⟨b, hb, rfl⟩ := List.mem_map.mp hc
    rw [toNat_ofNat_lt128 (h b hb)]
    exact h b hb)
  unfold jsStrLen at *
  rw [this, List.length_map]

/-- What fromBuffer yields on a buffer of the exact shape a plain-mode
getBuffer produces: 4 header bytes, a 10-byte from block, a 10-byte to
block, a 64-byte signature block, the length-prefixed command bytes
(ASCII) and the trailing payload. -/
theorem fromBuffer_decomp (mN tN b2 b3 : Nat) (F T S C P : List Nat)
    (hmN : mN < 128)
    (hF : F.length = 10) (hT : T.length = 10) (hS : S.length = 64)
    (hC : ∀ b ∈ C, b < 128) (hCl : C.length ≤ 255)
    (hflag : (jsBitAnd (mN : Int) MODE_ENCRYPTED != 0) = false) :
    Message.fromBuffer
        ([mN, tN, b2, b3] ++ F ++ T ++ S ++ (C.length :: C) ++ P) =
      .ok { mode := (mN : Int), ttl := tN, seq := b2 + 256 * b3,
            «from» := toHexString F, «to» := toHexString T,
            command := ⟨C.map Char.ofNat⟩, signature := S,
            payload := P, encrypted := [] } := by
  have hBlen :
      ([mN, tN, b2, b3] ++ F ++ T ++ S ++ (C.length :: C) ++ P).length =
        89 + (C.length + P.length) := by
    simp [hF, hT, hS]
    omega
  have hsh1 : [mN, tN, b2, b3] ++ F ++ T ++ S ++ (C.length :: C) ++ P =
      [mN, tN, b2, b3] ++ (F ++ (T ++ (S ++ ((C.length :: C) ++ P)))) := by
    simp [List.append_assoc]
  have hslF : jsSlice
      ([mN, tN, b2, b3] ++ F ++ T ++ S ++ (C.length :: C) ++ P) 4 14 = F := by
    rw [hsh1]
    exact jsSlice_append_exact _ _ _ _ _ (by simp) (by simp [hF])
  have hsh2 : [mN, tN, b2, b3] ++ F ++ T ++ S ++ (C.length :: C) ++ P =
      ([mN, tN, b2, b3] ++ F) ++ (T ++ (S ++ ((C.length :: C) ++ P))) := by
    simp [List.append_assoc]
  have hslT : jsSlice
      ([mN, tN, b2, b3] ++ F ++ T ++ S ++ (C.length :: C) ++ P) 14 24 = T := by
    rw [hsh2]
    exact jsSlice_append_exact _ _ _ _ _ (by simp [hF]) (by simp [hF, hT])
  have hsh3 : [mN, tN, b2, b3] ++ F ++ T ++ S ++ (C.length :: C) ++ P =
      (([mN, tN, b2, b3] ++ F) ++ T) ++ (S ++ ((C.length :: C) ++ P)) := by
    simp [List.append_assoc]
  have hslS : jsSlice
      ([mN, tN, b2, b3] ++ F ++ T ++ S ++ (C.length :: C) ++ P) 24 88 = S := by
    rw [hsh3]
    exact jsSlice_append_exact _ _ _ _ _ (by simp [hF, hT])
      (by simp [hF, hT, hS])
  have hsh4 : [mN, tN, b2, b3] ++ F ++ T ++ S ++ (C.length :: C) ++ P =
      ((([mN, tN, b2, b3] ++ F) ++ T) ++ S) ++ (C.length :: (C ++ P)) := by
    simp [List.append_assoc]
  have hgetD88 :
      ([mN, tN, b2, b3] ++ F ++ T ++ S ++ (C.length :: C) ++ P).getD 88 0 =
        C.length := by
    rw [hsh4]
    exact getD_append_len' (by simp [hF, hT, hS])
  have hsh5 : [mN, tN, b2, b3] ++ F ++ T ++ S ++ (C.length :: C) ++ P =
      (((([mN, tN, b2, b3] ++ F) ++ T) ++ S) ++ [C.length]) ++ (C ++ P) := by
    simp [List.append_assoc]
  have hslC : jsSlice
      ([mN, tN, b2, b3] ++ F ++ T ++ S ++ (C.length :: C) ++ P) 89
        (89 + C.length) = C := by
    rw [hsh5]
    exact jsSlice_append_exact _ _ _ _ _ (by simp [hF, hT, hS])
      (by simp [hF, hT, hS])
  have hsh6 : [mN, tN, b2, b3] ++ F ++ T ++ S ++ (C.length :: C) ++ P =
      ((((([mN, tN, b2, b3] ++ F) ++ T) ++ S) ++ [C.length]) ++ C) ++ P := by
    simp [List.append_assoc]
  have hdrop :
      ([mN, tN, b2, b3] ++ F ++ T ++ S ++ (C.length :: C) ++ P).drop
        (88 + C.length + 1) = P := by
    rw [hsh6]
    exact List.drop_left' (by simp [hF, hT, hS]; omega)
  have hcmd : utf8DecodeStr (jsSlice
      ([mN, tN, b2, b3] ++ F ++ T ++ S ++ (C.length :: C) ++ P) 89
        (89 + C.length)) = ⟨C.map Char.ofNat⟩ := by
    rw [hslC]
    unfold utf8DecodeStr
    rw [utf8Decode_ascii C hC]
  have hget0 :
      ([mN, tN, b2, b3] ++ F ++ T ++ S ++ (C.length :: C) ++ P).getD 0 0 =
        mN := by
    simp
  have hget1 :
      ([mN, tN, b2, b3] ++ F ++ T ++ S ++ (C.length :: C) ++ P).getD 1 0 =
        tN := by
    simp
  have hget2 :
      ([mN, tN, b2, b3] ++ F ++ T ++ S ++ (C.length :: C) ++ P).getD 2 0 =
        b2 := by
    simp
  have hget3 :
      ([mN, tN, b2, b3] ++ F ++ T ++ S ++ (C.length :: C) ++ P).getD 3 0 =
        b3 := by
    simp
  have hread0 : jsReadInt8
      ([mN, tN, b2, b3] ++ F ++ T ++ S ++ (C.length :: C) ++ P) 0 =
        (mN : Int) := by
    unfold jsReadInt8
    rw [hget0, if_pos hmN]
  unfold Message.fromBuffer
  rw [if_neg (by omega)]
  simp only [jsReadUInt8, jsReadUInt16LE, hread0, hget1, hget2, hget3,
    hgetD88, hslF, hslT, hslS, hcmd, jsStrLen_map_ofNat C hC,
    Message.hasEncryptFlag, hflag, Bool.false_eq_true, if_false, hdrop]

/-- C2 (amended): round-trip for well-formed plain messages. With `from`
and `to` each exactly 20 lowercase hex characters, an ASCII command of at
most 255 characters, 0 ≤ mode < 128 with the ENCRYPTED and SIGNED bits
unset, and ttl ≤ 255, Message.fromBuffer (m.getBuffer) reproduces mode,
ttl, from, to, command and payload exactly. (As stated over every
non-empty `from` the claim fails: see the counterexample, where the empty
broadcast `to` decodes as twenty zero hex characters.) -/
theorem c2_roundtrip_wellformed (m : Message)
    (hf : m.«from».data.all isLowerHex = true)
    (hfl : m.«from».data.length = 20)
    (hta : m.«to».data.all isLowerHex = true)
    (htl : m.«to».data.length = 20)
    (hcm : ∀ c ∈ m.command.data, c.toNat < 128)
    (hcl : m.command.data.length ≤ 255)
    (hs : m.hasSignFlag = false) (he : m.hasEncryptFlag = false)
    (hm0 : 0 ≤ m.mode) (hm1 : m.mode < 128) (httl : m.ttl ≤ 255) :
    ∃ b m2, m.getBuffer = .ok b ∧ Message.fromBuffer b = .ok m2 ∧
      m2.mode = m.mode ∧ m2.ttl = m.ttl ∧ m2.«from» = m.«from» ∧
      m2.«to» = m.«to» ∧ m2.command = m.command ∧
      m2.payload = m.payload := by
  -- command bytes are the ASCII codes
  have hC : utf8Encode m.command = m.command.data.map Char.toNat :=
    utf8Encode_ascii m.command hcm
  have hCb : ∀ b ∈ utf8Encode m.command, b < 128 := by
    rw [hC]
    intro b hb
    obtain ⟨c, hc, rfl⟩ := List.mem_map.mp hb
    exact hcm c hc
  have hClen : (utf8Encode m.command).length = m.command.data.length := by
    rw [hC, List.length_map]
  -- from block
  have hfhex := hexChars_hexPairs m.«from».data hf (by rw [hfl])
  have hflen10 : (hexPairs m.«from».data).length = 10 := by
    rw [hfhex.2, hfl]
  have hfpad : padTo 10 ((hexPairs m.«from».data).take 10) =
      hexPairs m.«from».data := by
    rw [List.take_of_length_le (by rw [hflen10])]
    unfold padTo
    rw [hflen10]
    simp
  have hfstr : toHexString (hexPairs m.«from».data) = m.«from» := by
    unfold toHexString
    rw [hfhex.1]
  have hfne : m.«from» ≠ "" := by
    intro h0
    rw [h0] at hfl
    simp at hfl
  -- to block
  have hthex := hexChars_hexPairs m.«to».data hta (by rw [htl])
  have htlen10 : (hexPairs m.«to».data).length = 10 := by
    rw [hthex.2, htl]
  have htpad : padTo 10 ((hexPairs m.«to».data).take 10) =
      hexPairs m.«to».data := by
    rw [List.take_of_length_le (by rw [htlen10])]
    unfold padTo
    rw [htlen10]
    simp
  have htstr : toHexString (hexPairs m.«to».data) = m.«to» := by
    unfold toHexString
    rw [hthex.1]
  have htne : m.«to» ≠ "" := by
    intro h0
    rw [h0] at htl
    simp at htl
  -- signature block
  have hS64 : (padTo 64 (m.signature.take 64)).length = 64 :=
    padTo_length (by rw [List.length_take]; exact min_le_left _ _)
  -- the encode
  have hok := getBuffer_ok m hfne (by simp [hs]) (by simp [he])
    (by omega) hm0 (by omega) httl
  rw [if_neg htne, hfpad, htpad] at hok
  simp only [he, Bool.false_eq_true, if_false] at hok
  -- the decode
  have hcast : ((m.mode.toNat : Nat) : Int) = m.mode :=
    Int.toNat_of_nonneg hm0
  have hmN : m.mode.toNat < 128 := by omega
  have hflag : (jsBitAnd ((m.mode.toNat : Nat) : Int) MODE_ENCRYPTED != 0)
      = false := by
    rw [hcast]
    exact he
  have hdec := fromBuffer_decomp m.mode.toNat m.ttl (m.mode.toNat % 256)
    (m.mode.toNat / 256 % 256) (hexPairs m.«from».data)
    (hexPairs m.«to».data) (padTo 64 (m.signature.take 64))
    (utf8Encode m.command) m.payload hmN hflen10 htlen10 hS64 hCb
    (by omega) hflag
  have hcmdstr : (⟨(utf8Encode m.command).map Char.ofNat⟩ : String) =
      m.command := by
    rw [hC, map_ofNat_toNat]
  rw [hcast, hfstr, htstr, hcmdstr] at hdec
  exact ⟨_, _, hok, hdec, rfl, rfl, rfl, rfl, rfl, rfl⟩

/-- A concrete plain-mode message with the broadcast (empty) `to`. -/
def msgBroadcast : Message :=
  { mode := 0, ttl := 1, seq := 0, «from» := "aa000000000000000000",
    «to» := "", command := "", payload := [], signature := [],
    encrypted := [] }

/-- C2 (counterexample): the round-trip claim fails as stated for every
Message with non-empty `from`: msgBroadcast has non-empty `from`, both
flags unset, and empty (broadcast) `to`, yet decoding its encoding yields
to = "00000000000000000000" ≠ "". -/
theorem c2_counterexample :
    msgBroadcast.«from» ≠ "" ∧
    msgBroadcast.hasEncryptFlag = false ∧
    msgBroadcast.hasSignFlag = false ∧
    ((msgBroadcast.getBuffer).bind Message.fromBuffer).map Message.«to» =
      .ok "00000000000000000000" ∧
    msgBroadcast.«to» = "" := by
  refine ⟨by decide, by decide, by decide, ?_, rfl⟩
  rfl

/-- A concrete well-formed plain-mode message exercising the round trip. -/
def msgRound : Message :=
  { mode := 0, ttl := 7, seq := 3, «from» := "0123456789abcdef0123",
    «to» := "ffeeddccbbaa99887766", command := "ping", payload := [9, 8, 7],
    signature := [], encrypted := [] }

/-- Witness for the amended round-trip at msgRound. -/
theorem c2_roundtrip_wellformed_witness :
    ∃ b m2, msgRound.getBuffer = .ok b ∧
      Message.fromBuffer b = .ok m2 ∧
      m2.mode = msgRound.mode ∧ m2.ttl = msgRound.ttl ∧
      m2.«from» = msgRound.«from» ∧ m2.«to» = msgRound.«to» ∧
      m2.command = msgRound.command ∧ m2.payload = msgRound.payload :=
  c2_roundtrip_wellformed msgRound (by decide) (by decide) (by decide)
    (by decide) (by decide) (by decide) (by decide) (by decide)
    (by decide) (by decide) (by decide)

/-- A signed message with a nonzero sequence number (seq = 5, mode =
MODE_SIGNED = 2), satisfying every getBuffer precondition. -/
def msgSeq : Message :=
  { mode := 2, ttl := 1, seq := 5, «from» := "aa000000000000000000",
    «to» := "", command := "", payload := [], signature := [7],
    encrypted := [] }

/-- C1: the bytes at offset 2..3 of the encoded frame are the mode (written
little-endian by line 151 of src/message.js), not the sequence number:
msgSeq has seq = 5 and mode = 2, yet its buffer holds [2, 0] at offset 2
(seq would be [5, 0]), and decoding the buffer returns seq = 2. -/
theorem c1_seq_slot_holds_mode :
    msgSeq.seq = 5 ∧ msgSeq.mode = 2 ∧
    (msgSeq.getBuffer).map (fun b => jsSlice b 2 4) = .ok [2, 0] ∧
    ((msgSeq.getBuffer).bind Message.fromBuffer).map Message.seq = .ok 2 ∧
    [2, 0] ≠ [5, 0] := by
  refine ⟨rfl, rfl, by rfl, by rfl, by decide⟩

/-- C3: with SIGNED set and a matching identity satisfying the
verify-of-sign law, m.sign(id) then verify(id) completes without
throwing, and the signature written is id.sign of the active payload
(encrypted when ENCRYPTED is set, else payload). -/
theorem c3_sign_then_verify (m : Message) (id : Identity)
    (hs : m.hasSignFlag = true) (ha : id.address = m.«from»)
    (hlaw : ∀ p, id.verify p (id.sign p) = true) :
    ∃ m', m.sign id = .ok m' ∧ m'.verify id = .ok m' ∧
      m'.signature =
        id.sign (if m.hasEncryptFlag then m.encrypted else m.payload) := by
  have hane : ¬(id.address ≠ m.«from») := by
    rw [ha]
    exact fun h => h rfl
  refine ⟨{ m with signature := id.sign (if m.hasEncryptFlag then m.encrypted else m.payload) }, ?_, ?_, rfl⟩
  · unfold Message.sign
    rw [hs]
    simp only [Bool.not_true, Bool.false_eq_true, if_false]
    rw [if_neg hane]
  · unfold Message.verify
    simp only [Message.hasSignFlag, Message.hasEncryptFlag] at hs ⊢
    simp only [hs, Bool.not_true, Bool.false_eq_true, if_false]
    rw [if_neg hane]
    rw [hlaw]
    simp

/-- Concrete signed message and matching identity for the C3 witness. -/
def msgSigned : Message :=
  { mode := 2, seq := 0, «from» := "ab", «to» := "", ttl := 1,
    command := "", payload := [1, 2], signature := [], encrypted := [] }

def idSigner : Identity :=
  { address := "ab", sign := fun p => 9 :: p,
    verify := fun p s => s == 9 :: p,
    encrypt := fun p => p, decrypt := fun p => p }

/-- Witness for the sign-then-verify law at msgSigned/idSigner. -/
theorem c3_sign_then_verify_witness :
    ∃ m', msgSigned.sign idSigner = .ok m' ∧
      m'.verify idSigner = .ok m' ∧
      m'.signature = idSigner.sign
        (if msgSigned.hasEncryptFlag then msgSigned.encrypted
         else msgSigned.payload) :=
  c3_sign_then_verify msgSigned idSigner (by decide) rfl
    (fun p => by simp [idSigner])

/-- C4: with ENCRYPTED set and an identity matching `to` whose decrypt
inverts its encrypt, encrypt-then-decrypt restores the payload; an
identity whose address differs from `to` makes either call fail with the
invalid-identity assertion. -/
theorem c4_encrypt_then_decrypt (m : Message) (id : Identity)
    (he : m.hasEncryptFlag = true) (ha : id.address = m.«to»)
    (hlaw : ∀ p, id.decrypt (id.encrypt p) = p) :
    (∃ m', m.encrypt id = .ok m' ∧ ∃ m2, m'.decrypt id = .ok m2 ∧
      m2.payload = m.payload) ∧
    (∀ id2 : Identity, id2.address ≠ m.«to» →
      m.encrypt id2 =
        .error (.assertFailed "Invalid identity to encrypt with") ∧
      m.decrypt id2 =
        .error (.assertFailed "Invalid identity to decrypt with")) := by
  have hane : ¬(id.address ≠ m.«to») := by
    rw [ha]
    exact fun h => h rfl
  constructor
  · refine ⟨{ m with encrypted := id.encrypt m.payload }, ?_, ?_⟩
    · unfold Message.encrypt
      rw [he]
      simp only [Bool.not_true, Bool.false_eq_true, if_false]
      rw [if_neg hane]
    · refine ⟨{ m with encrypted := id.encrypt m.payload, payload := id.decrypt (id.encrypt m.payload) }, ?_, ?_⟩
      · unfold Message.decrypt
        have he' : Message.hasEncryptFlag
            { m with encrypted := id.encrypt m.payload } = true := he
        rw [he']
        simp only [Bool.not_true, Bool.false_eq_true, if_false]
        rw [if_neg hane]
      · exact hlaw m.payload
  · intro id2 hne
    constructor
    · unfold Message.encrypt
      rw [he]
      simp only [Bool.not_true, Bool.false_eq_true, if_false]
      rw [if_pos hne]
    · unfold Message.decrypt
      rw [he]
      simp only [Bool.not_true, Bool.false_eq_true, if_false]
      rw [if_pos hne]

/-- Concrete encrypted message and identities for the C4 witness. -/
def msgEnc : Message :=
  { mode := 1, seq := 0, «from» := "ab", «to» := "cd", ttl := 1,
    command := "", payload := [1, 2], signature := [], encrypted := [] }

def idRecipient : Identity :=
  { address := "cd", sign := fun p => p, verify := fun _ _ => true,
    encrypt := fun p => 0 :: p, decrypt := fun p => p.drop 1 }

def idStranger : Identity :=
  { address := "zz", sign := fun p => p, verify := fun _ _ => true,
    encrypt := fun p => p, decrypt := fun p => p }

/-- Witness for the encrypt-then-decrypt law at msgEnc/idRecipient, and
for the invalid-identity failure at idStranger. -/
theorem c4_encrypt_then_decrypt_witness :
    (∃ m', msgEnc.encrypt idRecipient = .ok m' ∧
      ∃ m2, m'.decrypt idRecipient = .ok m2 ∧
        m2.payload = msgEnc.payload) ∧
    msgEnc.encrypt idStranger =
      .error (.assertFailed "Invalid identity to encrypt with") ∧
    msgEnc.decrypt idStranger =
      .error (.assertFailed "Invalid identity to decrypt with") :=
  ⟨(c4_encrypt_then_decrypt msgEnc idRecipient (by decide) rfl
      (fun p => rfl)).1,
   ((c4_encrypt_then_decrypt msgEnc idRecipient (by decide) rfl
      (fun p => rfl)).2 idStranger (by decide)).1,
   ((c4_encrypt_then_decrypt msgEnc idRecipient (by decide) rfl
      (fun p => rfl)).2 idStranger (by decide)).2⟩

/-- C5: when the governing flag is unset, each of the four crypto
operations returns the message unchanged — no field changes, nothing is
thrown — for any identity argument whatsoever. -/
theorem c5_unset_flag_noop (m : Message) (id : Identity) :
    (m.hasSignFlag = false → m.sign id = .ok m ∧ m.verify id = .ok m) ∧
    (m.hasEncryptFlag = false →
      m.encrypt id = .ok m ∧ m.decrypt id = .ok m) := by
  constructor
  · intro hs
    constructor
    · unfold Message.sign
      rw [hs]
      simp
    · unfold Message.verify
      rw [hs]
      simp
  · intro he
    constructor
    · unfold Message.encrypt
      rw [he]
      simp
    · unfold Message.decrypt
      rw [he]
      simp

/-- A fully plain message (mode 0). -/
def msgPlain : Message :=
  { mode := 0, seq := 0, «from» := "ab", «to» := "cd", ttl := 1,
    command := "hi", payload := [5], signature := [], encrypted := [] }

/-- Witness: every crypto operation is a no-op on msgPlain, even with an
identity whose address matches neither from nor to. -/
theorem c5_unset_flag_noop_witness :
    msgPlain.sign idStranger = .ok msgPlain ∧
    msgPlain.verify idStranger = .ok msgPlain ∧
    msgPlain.encrypt idStranger = .ok msgPlain ∧
    msgPlain.decrypt idStranger = .ok msgPlain :=
  ⟨((c5_unset_flag_noop msgPlain idStranger).1 (by decide)).1,
   ((c5_unset_flag_noop msgPlain idStranger).1 (by decide)).2,
   ((c5_unset_flag_noop msgPlain idStranger).2 (by decide)).1,
   ((c5_unset_flag_noop msgPlain idStranger).2 (by decide)).2⟩

/-- C10: whenever a crypto operation returns normally, the routing fields
are untouched; sign changes only signature, verify changes nothing,
encrypt changes only encrypted, decrypt changes only payload. -/
theorem c10_crypto_frame (m m' : Message) (id : Identity) :
    (m.sign id = .ok m' →
      m'.mode = m.mode ∧ m'.ttl = m.ttl ∧ m'.seq = m.seq ∧
      m'.«from» = m.«from» ∧ m'.«to» = m.«to» ∧
      m'.command = m.command ∧ m'.payload = m.payload ∧
      m'.encrypted = m.encrypted) ∧
    (m.verify id = .ok m' → m' = m) ∧
    (m.encrypt id = .ok m' →
      m'.mode = m.mode ∧ m'.ttl = m.ttl ∧ m'.seq = m.seq ∧
      m'.«from» = m.«from» ∧ m'.«to» = m.«to» ∧
      m'.command = m.command ∧ m'.payload = m.payload ∧
      m'.signature = m.signature) ∧
    (m.decrypt id = .ok m' →
      m'.mode = m.mode ∧ m'.ttl = m.ttl ∧ m'.seq = m.seq ∧
      m'.«from» = m.«from» ∧ m'.«to» = m.«to» ∧
      m'.command = m.command ∧ m'.encrypted = m.encrypted ∧
      m'.signature = m.signature) := by
  refine ⟨?_, ?_, ?_, ?_⟩
  · intro h
    unfold Message.sign at h
    split at h
    · cases h
      exact ⟨rfl, rfl, rfl, rfl, rfl, rfl, rfl, rfl⟩
    · split at h
      · cases h
      · cases h
        exact ⟨rfl, rfl, rfl, rfl, rfl, rfl, rfl, rfl⟩
  · intro h
    unfold Message.verify at h
    set pl := if m.hasEncryptFlag then m.encrypted else m.payload with hpl
    split at h
    · cases h
      rfl
    · split at h
      · cases h
      · dsimp only at h
        split at h
        · cases h
        · cases h
          rfl
  · intro h
    unfold Message.encrypt at h
    split at h
    · cases h
      exact ⟨rfl, rfl, rfl, rfl, rfl, rfl, rfl, rfl⟩
    · split at h
      · cases h
      · cases h
        exact ⟨rfl, rfl, rfl, rfl, rfl, rfl, rfl, rfl⟩
  · intro h
    unfold Message.decrypt at h
    split at h
    · cases h
      exact ⟨rfl, rfl, rfl, rfl, rfl, rfl, rfl, rfl⟩
    · split at h
      · cases h
      · cases h
        exact ⟨rfl, rfl, rfl, rfl, rfl, rfl, rfl, rfl⟩

/-- The result of signing msgSigned with idSigner. -/
def msgSignedAfter : Message :=
  { mode := 2, seq := 0, «from» := "ab", «to» := "", ttl := 1,
    command := "", payload := [1, 2], signature := [9, 1, 2],
    encrypted := [] }

/-- Witness: the frame condition applied to an actual successful sign. -/
theorem c10_crypto_frame_witness :
    msgSignedAfter.mode = msgSigned.mode ∧
    msgSignedAfter.ttl = msgSigned.ttl ∧
    msgSignedAfter.seq = msgSigned.seq ∧
    msgSignedAfter.«from» = msgSigned.«from» ∧
    msgSignedAfter.«to» = msgSigned.«to» ∧
    msgSignedAfter.command = msgSigned.command ∧
    msgSignedAfter.payload = msgSigned.payload ∧
    msgSignedAfter.encrypted = msgSigned.encrypted :=
  (c10_crypto_frame msgSigned msgSignedAfter idSigner).1 rfl

/-- C6 (amended): getBuffer's error and success contract, with the source
check order made explicit — the signature check precedes the encrypted
check — and the byte-range side conditions (mode and ttl fit one byte,
command at most 255 UTF-8 bytes) that Node's checked writes impose. The
function reads the message and never writes it. -/
theorem c6_getbuffer_contract (m : Message) :
    (m.«from» = "" → m.getBuffer = .error (.assertFailed "Unset from")) ∧
    (m.«from» ≠ "" → m.hasSignFlag = true → m.signature = [] →
      m.getBuffer = .error (.thrown "Invalid signature")) ∧
    (m.«from» ≠ "" → ¬(m.hasSignFlag = true ∧ m.signature = []) →
      m.hasEncryptFlag = true → m.encrypted = [] →
      m.getBuffer = .error (.thrown "Invalid encrypted")) ∧
    (m.«from» ≠ "" → ¬(m.hasSignFlag = true ∧ m.signature = []) →
      ¬(m.hasEncryptFlag = true ∧ m.encrypted = []) →
      0 ≤ m.mode → m.mode ≤ 255 → m.ttl ≤ 255 →
      (utf8Encode m.command).length ≤ 255 →
      ∃ b, m.getBuffer = .ok b ∧
        b.length = 88 + 1 + (utf8Encode m.command).length +
          (if m.hasEncryptFlag then m.encrypted else m.payload).length) := by
  refine ⟨?_, ?_, ?_, ?_⟩
  · intro h
    unfold Message.getBuffer
    rw [if_pos h]
  · intro hne hs hsig
    unfold Message.getBuffer
    rw [if_neg hne]
    have hcond : (m.hasSignFlag && m.signature.length == 0) = true := by
      simp [hs, hsig]
    rw [if_pos hcond]
  · intro hne hnsig he henc
    unfold Message.getBuffer
    rw [if_neg hne]
    have h2 : (m.hasSignFlag && m.signature.length == 0) = false := by
      by_cases hs : m.hasSignFlag = true
      · have hnz : m.signature ≠ [] := fun h0 => hnsig ⟨hs, h0⟩
        simp [hs, List.length_eq_zero, hnz]
      · simp only [Bool.not_eq_true] at hs
        simp [hs]
    simp only [h2, Bool.false_eq_true, if_false]
    have h3 : (m.hasEncryptFlag && m.encrypted.length == 0) = true := by
      simp [he, henc]
    rw [if_pos h3]
  · intro hne hnsig hnenc hm0 hm1 httl hcl
    have hok := getBuffer_ok m hne
      (by simpa [List.length_eq_zero] using hnsig)
      (by simpa [List.length_eq_zero] using hnenc) hcl hm0 hm1 httl
    refine ⟨_, hok, ?_⟩
    have hF : (padTo 10 ((hexPairs m.«from».data).take 10)).length = 10 :=
      padTo_length (by rw [List.length_take]; exact min_le_left _ _)
    have hT : (if m.«to» = "" then List.replicate 10 0
        else padTo 10 ((hexPairs m.«to».data).take 10)).length = 10 := by
      split
      · simp
      · exact padTo_length (by rw [List.length_take]; exact min_le_left _ _)
    have hS : (padTo 64 (m.signature.take 64)).length = 64 :=
      padTo_length (by rw [List.length_take]; exact min_le_left _ _)
    simp only [List.length_append, List.length_cons, hF, hT, hS,
      List.length_cons]
    simp
    omega

/-- A message with both flags set and both signature and encrypted empty. -/
def msgBothEmpty : Message :=
  { mode := 3, ttl := 1, seq := 0, «from» := "aa000000000000000000",
    «to» := "", command := "", payload := [], signature := [],
    encrypted := [] }

/-- C6 (counterexample): with ENCRYPTED set and `encrypted` empty — but
SIGNED also set with `signature` empty — getBuffer throws the
invalid-signature error, not the invalid-encrypted error the claim
promises for that condition. -/
theorem c6_counterexample :
    msgBothEmpty.hasEncryptFlag = true ∧ msgBothEmpty.encrypted = [] ∧
    msgBothEmpty.«from» ≠ "" ∧
    msgBothEmpty.getBuffer = .error (.thrown "Invalid signature") ∧
    msgBothEmpty.getBuffer ≠ .error (.thrown "Invalid encrypted") := by
  have e : msgBothEmpty.getBuffer = .error (.thrown "Invalid signature") :=
    rfl
  refine ⟨by decide, rfl, by decide, e, ?_⟩
  rw [e]
  simp

/-- Witness for the getBuffer success contract at msgRound. -/
theorem c6_getbuffer_contract_witness :
    ∃ b, msgRound.getBuffer = .ok b ∧
      b.length = 88 + 1 + (utf8Encode msgRound.command).length +
        (if msgRound.hasEncryptFlag then msgRound.encrypted
         else msgRound.payload).length :=
  (c6_getbuffer_contract msgRound).2.2.2 (by decide) (by decide) (by decide)
    (by decide) (by decide) (by decide) (by decide)

/-- A reference-level message whose payload Buffer is store slot 0. -/
def mRefEx : MessageRef :=
  { mode := 0, seq := 0, «from» := "ab", «to» := "", ttl := 1,
    command := "", payloadRef := 0, signatureRef := 1, encryptedRef := 2 }

/-- The heap for the clone counterexample: payload [1,2,3], empty
signature and encrypted Buffers. -/
def storeEx : Store := [[1, 2, 3], [], []]

/-- C7 (counterexample): the clone is not a deep copy. The clone holds
the very same payload Buffer reference as the original (toBuffer returns
a Buffer argument unchanged), so setting byte 0 of the clone's payload
to 99 changes the original's payload from [1,2,3] to [99,2,3]. -/
theorem c7_counterexample :
    (mRefEx.clone).payloadRef = mRefEx.payloadRef ∧
    readBuf storeEx mRefEx.payloadRef = [1, 2, 3] ∧
    readBuf (writeByteAt storeEx (mRefEx.clone).payloadRef 0 99)
      mRefEx.payloadRef = [99, 2, 3] ∧
    [99, 2, 3] ≠ [1, 2, 3] := by
  decide

/-- C7 (amended): clone copies every field value — the clone's mode, ttl,
seq, from, to, command, payload, signature and encrypted all equal the
original's — but it is a shallow copy: at the reference level the clone
keeps the same Buffer objects, so mutating the clone's buffer contents is
visible through the original. -/
theorem c7_clone_fields_buffers_shared :
    (∀ m : Message, m.clone = m) ∧ (∀ mr : MessageRef, mr.clone = mr) := by
  constructor
  · intro m
    rfl
  · intro mr
    rfl

/-! ## Peer claims -/

/-- C8: Peer construction fails exactly when the supplied address differs
from the address the Identity capability derives from pubKey; on a match
it succeeds and sets networkId, urls and timestamp from the arguments. -/
theorem c8_peer_construct (derive : String → String) (a : PeerArgs) :
    (a.address = deriveAddress derive a.pubKey →
      Peer.construct derive a = .ok
        { address := a.address, networkId := a.networkId, urls := a.urls,
          timestamp := a.timestamp }) ∧
    (a.address ≠ deriveAddress derive a.pubKey →
      Peer.construct derive a = .error (.thrown "Mismatch address")) := by
  constructor
  · intro h
    unfold Peer.construct
    rw [if_neg (not_not_intro h), h]
  · intro h
    unfold Peer.construct
    rw [if_pos h]

/-- Arguments whose address matches the derivation (modelled identity). -/
def peerArgsGood : PeerArgs :=
  { networkId := "net", address := "pk1", pubKey := "pk1",
    urls := ["tcp:1.2.3.4:9"], timestamp := 0 }

/-- Arguments whose address does not match the derivation. -/
def peerArgsBad : PeerArgs :=
  { networkId := "net", address := "other", pubKey := "pk1",
    urls := [], timestamp := 0 }

/-- Witness: with the identity derivation modelled as the identity
function, a matching address constructs the Peer and a mismatch throws. -/
theorem c8_peer_construct_witness :
    Peer.construct (fun s => s) peerArgsGood = .ok
      { address := "pk1", networkId := "net", urls := ["tcp:1.2.3.4:9"],
        timestamp := 0 } ∧
    Peer.construct (fun s => s) peerArgsBad =
      .error (.thrown "Mismatch address") :=
  ⟨(c8_peer_construct (fun s => s) peerArgsGood).1 rfl,
   (c8_peer_construct (fun s => s) peerArgsBad).2 (by decide)⟩

/-- C9: getEligibleUrls is exactly the order-preserving filter of urls by
"some dialer's proto: is a prefix"; it is a sublist of urls and empty
when nothing matches. -/
theorem c9_eligible_urls (p : Peer) (node : NodeInfo) :
    p.getEligibleUrls node = p.urls.filter
      (fun url => decide (∃ d ∈ node.dialers,
        (d.proto ++ ":").data.isPrefixOf url.data = true)) ∧
    (p.getEligibleUrls node).Sublist p.urls ∧
    ((∀ u ∈ p.urls, ∀ d ∈ node.dialers,
        (d.proto ++ ":").data.isPrefixOf u.data = false) →
      p.getEligibleUrls node = []) := by
  refine ⟨?_, ?_, ?_⟩
  · unfold Peer.getEligibleUrls
    apply List.filter_congr
    intro u hu
    by_cases hx : ∃ d ∈ node.dialers,
        (d.proto ++ ":").data.isPrefixOf u.data = true
    · rw [List.find?_isSome.mpr hx, decide_eq_true hx]
    · have h1 : (node.dialers.find? fun d =>
          (d.proto ++ ":").data.isPrefixOf u.data).isSome = false := by
        cases hy : (node.dialers.find? fun d =>
            (d.proto ++ ":").data.isPrefixOf u.data).isSome
        · rfl
        · exact absurd (List.find?_isSome.mp hy) hx
      rw [h1, decide_eq_false hx]
  · unfold Peer.getEligibleUrls
    exact List.filter_sublist _
  · intro hnone
    unfold Peer.getEligibleUrls
    apply List.filter_eq_nil_iff.mpr
    intro u hu
    have : (node.dialers.find? fun d =>
        (d.proto ++ ":").data.isPrefixOf u.data) = none :=
      List.find?_eq_none.mpr (fun d hd => by rw [hnone u hu d hd]; simp)
    rw [this]
    simp

/-- The spec's worked example. -/
def peerEx : Peer :=
  { address := "pk1", networkId := "net",
    urls := ["tcp:1.2.3.4:9", "ws:host/path"], timestamp := 0 }

def nodeEx : NodeInfo := { dialers := [{ proto := "tcp" }] }

/-- Witness: the spec's example — only the tcp url survives, and the
result is a sublist of urls. -/
theorem c9_eligible_urls_witness :
    peerEx.getEligibleUrls nodeEx = ["tcp:1.2.3.4:9"] ∧
    (peerEx.getEligibleUrls nodeEx).Sublist peerEx.urls :=
  ⟨by decide, (c9_eligible_urls peerEx nodeEx).2.1⟩
